import Mathlib

/-!
Verification of the turn-execution engine of the agent-cli repository
(src/run.ts), as a shallow embedding in Lean.

The embedding follows the source closely:
* `Json` models decoded JSON values (numbers restricted to integers, the
  only numeric field the engine reads is an integer exit code).
* JavaScript field access, nullish coalescing and string truthiness are
  modelled explicitly (`getF`, `jsC`, `truthyStr`).
* `JSON.parse` is a platform builtin, so the engine is parameterised by a
  decode function of type `String → Except String Json`; concrete runs
  instantiate it with a sample decoder.
* The mutable turn state of `executeCommand` becomes the record
  `TurnState`; the output callbacks become pure transition functions, and
  a turn is the fold of those transitions over the process inputs.
-/

/-- The supported agent harnesses (src/types.ts `Harness`). -/
inductive Harness where
  | claude
  | codex
  | opencode
  | gemini
deriving DecidableEq, Repr

/-- The harness identifier string, as interpolated into error messages. -/
def harnessName : Harness → String
  | .claude => "claude"
  | .codex => "codex"
  | .opencode => "opencode"
  | .gemini => "gemini"

/-- `TurnMode` from src/run.ts. -/
inductive TurnMode where
  | conversation
  | single_shot
deriving DecidableEq, Repr

/-- `CompletionReason` from src/run.ts. -/
inductive CompletionReason where
  | success
  | out_of_tokens
  | error
  | killed
deriving DecidableEq, Repr

/-- Decoded JSON values (numbers restricted to integers). -/
inductive Json where
  | null
  | bool (b : Bool)
  | num (n : Int)
  | str (s : String)
  | arr (items : List Json)
  | obj (fields : List (String × Json))
deriving Repr

/-- Model of `asObject` from src/run.ts: JavaScript treats arrays as
objects too, and string-keyed lookup on an array yields undefined, which
`getF` reproduces. Non-objects map to none (undefined in the source is
propagated as none throughout). -/
def asObject : Json → Option Json
  | .obj fields => some (.obj fields)
  | .arr items => some (.arr items)
  | _ => none

/-- Field access `o.k` on a value already known to be a JS object.
Missing fields are undefined, modelled as none. -/
def getF (v : Json) (k : String) : Option Json :=
  match v with
  | .obj fields => (fields.find? (fun p => p.fst = k)).map (·.snd)
  | _ => none

/-- Optional-chained field access `o?.k`. -/
def oGetF (v : Option Json) (k : String) : Option Json :=
  v.bind (fun j => getF j k)

/-- `asObject` applied through an optional value. -/
def asObjectO (v : Option Json) : Option Json :=
  v.bind asObject

/-- Model of `asString` from src/run.ts: the value if it is a string,
undefined otherwise. -/
def asString : Option Json → Option String
  | some (.str s) => some s
  | _ => none

/-- JavaScript string truthiness: the empty string is falsy. -/
def truthyStr (s : Option String) : Option String :=
  s.bind (fun t => if t = "" then none else some t)

/-- JavaScript nullish coalescing `a ?? b` on raw JSON field reads:
null and undefined fall through, every other value is kept. -/
def jsC : Option Json → Option Json → Option Json
  | some .null, b => b
  | none, b => b
  | some v, _ => some v

/-- `a ?? b` with a default value on the right. -/
def jsCoalesceV : Option Json → Json → Json
  | some .null, d => d
  | none, d => d
  | some v, _ => v

/-- Model of the JavaScript whitespace class used by `String.trim`
(the ASCII part, which is all the engine ever meets). -/
def jsWhitespace (c : Char) : Bool :=
  c = ' ' ∨ c = '\t' ∨ c = '\n' ∨ c = '\r' ∨ c = '\x0b' ∨ c = '\x0c'

/-- Model of JavaScript `String.prototype.trim`. -/
def jsTrim (s : String) : String :=
  String.mk (((s.toList.dropWhile jsWhitespace).reverse.dropWhile jsWhitespace).reverse)

/-- Lowercased character list of a string (ASCII case folding, as in the
case-insensitive regular expressions of the source). -/
def jsLower (s : String) : List Char :=
  s.toList.map Char.toLower

/-- Bool-valued substring search over character lists. -/
def hasSub (hay needle : List Char) : Bool :=
  match hay with
  | [] => needle.isEmpty
  | _ :: t => needle.isPrefixOf hay || hasSub t needle

/-- Case-insensitive substring test. -/
def containsCI (hay needle : String) : Bool :=
  hasSub (jsLower hay) (jsLower needle)

/-- Model of `OUT_OF_TOKENS_PATTERN.test`: the regular expression is an
alternation of literal phrases (the two optional words of the
exceeded-quota alternative are expanded into the four phrases they
generate), tested case-insensitively as substrings. -/
def outOfTokensPattern (s : String) : Bool :=
  containsCI s "out of tokens" ||
  containsCI s "token limit" ||
  containsCI s "usage limit" ||
  containsCI s "insufficient credits" ||
  containsCI s "insufficient balance" ||
  containsCI s "exceeded quota" ||
  containsCI s "exceeded your quota" ||
  containsCI s "exceeded current quota" ||
  containsCI s "exceeded your current quota" ||
  containsCI s "credit balance" ||
  containsCI s "rate limit exceeded"

/-- Model of the anchored, case-insensitive test for an existing
normalized marker. -/
def startsOotColon (s : String) : Bool :=
  List.isPrefixOf ("out of tokens:".toList) (jsLower s)

/-- The kind field of the classifier result. -/
inductive ErrorKind where
  | out_of_tokens
  | error
deriving DecidableEq, Repr

/-- Result record of `classifyError`. -/
structure Classified where
  kind : ErrorKind
  message : String
deriving DecidableEq, Repr

/-- `classifyError` from src/run.ts. -/
def classifyError (message : String) : Classified :=
  let trimmed := jsTrim message
  if trimmed = "" then
    { kind := .error, message := "Unknown error" }
  else if outOfTokensPattern trimmed then
    { kind := .out_of_tokens,
      message := if startsOotColon trimmed then trimmed else "Out of tokens: " ++ trimmed }
  else
    { kind := .error, message := trimmed }

example : classifyError "rate limit exceeded" =
    { kind := .out_of_tokens, message := "Out of tokens: rate limit exceeded" } := by rfl

example : classifyError "unexpected token at line 4" =
    { kind := .error, message := "unexpected token at line 4" } := by rfl

example : classifyError "   " = { kind := .error, message := "Unknown error" } := by rfl

example : classifyError "Out of Tokens: quota hit a usage limit" =
    { kind := .out_of_tokens, message := "Out of Tokens: quota hit a usage limit" } := by rfl

/-- Model of JavaScript string escaping inside `JSON.stringify` output
(quote and backslash; the records met here contain no control
characters). -/
def escapeJs (s : String) : String :=
  String.join (s.toList.map (fun c =>
    if c = '"' then "\\\"" else if c = '\\' then "\\\\" else String.mk [c]))

/-- Model of `JSON.stringify` on JSON-derived values: keys in insertion
order, no added whitespace. -/
def renderJs : Json → String
  | .null => "null"
  | .bool b => if b then "true" else "false"
  | .num n => toString n
  | .str s => "\"" ++ escapeJs s ++ "\""
  | .arr items => "[" ++ String.intercalate "," (items.attach.map (fun x => renderJs x.1)) ++ "]"
  | .obj fields => "\x7b" ++
      String.intercalate ","
        (fields.attach.map (fun p => "\"" ++ escapeJs p.1.1 ++ "\":" ++ renderJs p.1.2)) ++
      "\x7d"
decreasing_by
  all_goals simp_wf
  · have h := List.sizeOf_lt_of_mem x.2
    omega
  · have h1 := List.sizeOf_lt_of_mem p.2
    have h2 : sizeOf (p.val).2 < sizeOf p.val := by
      obtain ⟨⟨a, b⟩, hm⟩ := p
      simp
    omega

/-- Model of the JavaScript `String()` conversion on JSON-derived
values (used for the status field of a failed Gemini result). -/
def jsStringOf : Json → String
  | .null => "null"
  | .bool b => if b then "true" else "false"
  | .num n => toString n
  | .str s => s
  | .arr items => String.intercalate "," (items.attach.map (fun x => jsStringOf x.1))
  | .obj _ => "[object Object]"
decreasing_by
  all_goals simp_wf
  have h := List.sizeOf_lt_of_mem x.2
  omega

/-- `UnifiedAgentEvent` from src/run.ts. -/
inductive UnifiedAgentEvent where
  | session_started (sessionId : String)
  | turn_started
  | text_delta (text : String)
  | tool_use (name : String) (input : Json) (displayText : Option String)
  | out_of_tokens (message : String)
  | error (message : String)
  | turn_complete (reason : CompletionReason)
  | stderr (text : String)
deriving Repr

/-- The first event the source pushes for a classified failure: an
`out_of_tokens` or `error` event carrying the classified message. -/
def classifiedEvent (c : Classified) : UnifiedAgentEvent :=
  if c.kind = .out_of_tokens then .out_of_tokens c.message else .error c.message

/-- The terminal reason the source pairs with a classified failure. -/
def classifiedReason (c : Classified) : CompletionReason :=
  if c.kind = .out_of_tokens then .out_of_tokens else .error

/-- `captureSessionIdFromJson` from src/run.ts. The codex branch compares
the raw `type` field with the literal thread.started (strict equality with
a string literal holds exactly when the value is that string). -/
def captureSessionIdFromJson (harness : Harness) (json : Json) : Option String :=
  match asObject json with
  | none => none
  | some obj =>
    match harness with
    | .codex =>
        match getF obj "type" with
        | some (.str t) =>
            if t = "thread.started" then asString (getF obj "thread_id") else none
        | _ => none
    | .opencode =>
        let part := asObjectO (getF obj "part")
        let candidate :=
          jsC (getF obj "sessionID")
            (jsC (getF obj "sessionId")
              (jsC (getF obj "session_id")
                (jsC (oGetF part "sessionID")
                  (jsC (oGetF part "sessionId") (oGetF part "session_id")))))
        asString candidate
    | .claude =>
        (asString (getF obj "session_id")).or (asString (getF obj "sessionId"))
    | .gemini => none

/-- `parseClaude` from src/run.ts. -/
def parseClaude (json : Json) : List UnifiedAgentEvent :=
  match asObject json with
  | none => [.error "Claude emitted non-object JSON"]
  | some obj =>
    let type := asString (getF obj "type")
    if type = some "system" ∧ asString (getF obj "subtype") = some "init" then
      [.turn_started]
    else if type = some "stream_event" then
      let event := asObjectO (getF obj "event")
      let eventType := asString (oGetF event "type")
      if eventType = some "content_block_delta" then
        let delta := asObjectO (oGetF event "delta")
        if asString (oGetF delta "type") = some "text_delta" then
          match truthyStr (asString (oGetF delta "text")) with
          | some text => [.text_delta text]
          | none => []
        else []
      else if eventType = some "content_block_start" then
        let contentBlock := asObjectO (oGetF event "content_block")
        if asString (oGetF contentBlock "type") = some "tool_use" then
          let name := (asString (oGetF contentBlock "name")).getD "tool"
          let input :=
            match truthyStr (asString (oGetF contentBlock "id")) with
            | some blockId => Json.obj [("_blockId", .str blockId)]
            | none => Json.obj []
          let displayText :=
            if name = "Task" ∨ name = "AskUserQuestion" then none else some (name ++ "\n")
          [.tool_use name input displayText]
        else []
      else []
    else if type = some "assistant" then
      let message := asObjectO (getF obj "message")
      match oGetF message "content" with
      | some (Json.arr content) =>
          match content.findSome? (fun item =>
            let block := asObjectO (some item)
            if asString (oGetF block "type") = some "tool_use" ∧
               asString (oGetF block "name") = some "AskUserQuestion" then
              some ((asObjectO (oGetF block "input")).getD (Json.obj []))
            else none) with
          | some input =>
              [.text_delta ("\n<!--ask_user_question:" ++ renderJs input ++ "-->\n")]
          | none => []
      | _ => []
    else if type = some "result" then
      if asString (getF obj "subtype") = some "success" then
        [.turn_complete .success]
      else
        let message := (asString (getF obj "result")).getD "Claude returned an error"
        let c := classifyError message
        [classifiedEvent c, .turn_complete (classifiedReason c)]
    else []

/-- `parseCodex` from src/run.ts. -/
def parseCodex (json : Json) : List UnifiedAgentEvent :=
  match asObject json with
  | none => [.error "Codex emitted non-object JSON"]
  | some obj =>
    match truthyStr (asString (getF obj "type")) with
    | none => []
    | some "thread.started" => []
    | some "turn.started" => [.turn_started]
    | some "turn.completed" => [.turn_complete .success]
    | some "turn.failed" =>
        let rawErr := getF obj "error"
        let message :=
          ((asString rawErr).or (asString (oGetF (asObjectO rawErr) "message"))).getD
            (renderJs (jsCoalesceV rawErr (.str "Unknown error")))
        let c := classifyError message
        [classifiedEvent c, .turn_complete (classifiedReason c)]
    | some "error" =>
        let c := classifyError ((asString (getF obj "message")).getD (renderJs obj))
        [classifiedEvent c]
    | some "item.started" =>
        let item := asObjectO (getF obj "item")
        if asString (oGetF item "type") = some "command_execution" then
          match truthyStr (asString (oGetF item "command")) with
          | some command =>
              [.tool_use "shell" (Json.obj [("command", .str command)]) (some (command ++ "\n"))]
          | none => []
        else []
    | some "item.completed" =>
        let item := asObjectO (getF obj "item")
        match truthyStr (asString (oGetF item "type")) with
        | none => []
        | some "agent_message" =>
            match truthyStr (asString (oGetF item "text")) with
            | some text => [.text_delta text]
            | none => []
        | some "command_execution" =>
            let command := (asString (oGetF item "command")).getD ""
            let exitCodeField :=
              match oGetF item "exit_code" with
              | some (.num n) => some n
              | _ => none
            let input := Json.obj (("command", Json.str command) ::
              (match exitCodeField with
               | some n => [("exit_code", Json.num n)]
               | none => []))
            [.tool_use "shell" input none]
        | some "file_change" =>
            let changes :=
              match oGetF item "changes" with
              | some (.arr xs) => Json.arr xs
              | _ => Json.arr []
            [.tool_use "file_change" (Json.obj [("changes", changes)]) none]
        | some "mcp_tool_call" =>
            [.tool_use ((asString (oGetF item "name")).getD "mcp_tool") (Json.obj []) none]
        | some "web_search" =>
            [.tool_use "web_search" (Json.obj []) none]
        | some _ => []
    | some _ => []

/-- `normalizeType` from src/run.ts: dashes to underscores, lowercased;
undefined and the empty string map to undefined. -/
def normalizeType (raw : Option String) : Option String :=
  match truthyStr raw with
  | none => none
  | some r => some (String.mk (r.toList.map (fun c => Char.toLower (if c = '-' then '_' else c))))

/-- `extractOpenCodeAssistantText` from src/run.ts. -/
def extractOpenCodeAssistantText (obj : Json) : Option String :=
  match truthyStr (asString (getF obj "text")) with
  | some direct => some direct
  | none =>
    let part := asObjectO (getF obj "part")
    match truthyStr (asString (oGetF part "text")) with
    | some t => some t
    | none =>
      let delta := asObjectO (oGetF part "delta")
      match truthyStr (asString (oGetF delta "text")) with
      | some t => some t
      | none =>
        let message := asObjectO (getF obj "message")
        match truthyStr ((asString (oGetF message "text")).or (asString (oGetF message "content"))) with
        | some t => some t
        | none =>
          match oGetF message "content" with
          | some (.arr content) =>
            let chunks := content.filterMap
              (fun entry => truthyStr (asString (oGetF (asObject entry) "text")))
            if chunks.length > 0 then some (String.join chunks) else none
          | _ => none

/-- The OpenCode dispatch discriminant: the normalized top-level type,
falling back to the normalized part type (src/run.ts lines 450-452). -/
def openCodeEventType (obj : Json) : Option String :=
  let topType := normalizeType (asString (getF obj "type"))
  let partType := normalizeType (asString (oGetF (asObjectO (getF obj "part")) "type"))
  topType.or partType

/-- `parseOpenCode` from src/run.ts. -/
def parseOpenCode (json : Json) : List UnifiedAgentEvent :=
  match asObject json with
  | none => [.error "OpenCode emitted non-object JSON"]
  | some obj =>
    let eventType := openCodeEventType obj
    if eventType = some "step_start" then [.turn_started]
    else if eventType = some "text" then
      match extractOpenCodeAssistantText obj with
      | some text => [.text_delta text]
      | none => []
    else if eventType = some "tool_use" ∨ eventType = some "tool" then
      let part := (asObjectO (getF obj "part")).getD (Json.obj [])
      let state := asObjectO (getF part "state")
      let input := (asObjectO (oGetF state "input")).getD (Json.obj [])
      let name := ((asString (getF part "tool")).or (asString (getF obj "tool"))).getD "tool"
      [.tool_use name input none]
    else if eventType = some "step_finish" then
      let part := asObjectO (getF obj "part")
      let reasonRaw := (asString (oGetF part "reason")).or (asString (getF obj "reason"))
      let reason := normalizeType reasonRaw
      if reason = some "tool_calls" then []
      else if reason = some "failed" ∨ reason = some "error" ∨ reason = some "abort" ∨
              reason = some "aborted" ∨ reason = some "cancel" ∨ reason = some "cancelled" ∨
              reason = some "canceled" then
        let c := classifyError ("OpenCode step failed (" ++ reasonRaw.getD "unknown" ++ ")")
        [classifiedEvent c, .turn_complete (classifiedReason c)]
      else [.turn_complete .success]
    else if eventType = some "done" ∨ eventType = some "complete" ∨
            eventType = some "message_complete" ∨ eventType = some "response_complete" then
      [.turn_complete .success]
    else if eventType = some "error" then
      let message :=
        ((asString (getF obj "message")).or
          (asString (oGetF (asObjectO (getF obj "error")) "message"))).getD "OpenCode error"
      let c := classifyError message
      [classifiedEvent c]
    else
      match extractOpenCodeAssistantText obj with
      | some fallback => [.text_delta fallback]
      | none => []

/-- `parseGemini` from src/run.ts. -/
def parseGemini (json : Json) : List UnifiedAgentEvent :=
  match asObject json with
  | none => [.error "Gemini emitted non-object JSON"]
  | some obj =>
    let type := asString (getF obj "type")
    if type = some "init" then [.turn_started]
    else if type = some "message" then
      if asString (getF obj "role") = some "assistant" then
        match truthyStr (asString (getF obj "content")) with
        | some content => [.text_delta content]
        | none => []
      else []
    else if type = some "result" then
      if asString (getF obj "status") = some "success" then
        [.turn_complete .success]
      else
        let message :=
          ((asString (getF obj "error")).or (asString (getF obj "message"))).getD
            ("Gemini result failed: " ++ jsStringOf (jsCoalesceV (getF obj "status") (.str "unknown")))
        let c := classifyError message
        [classifiedEvent c, .turn_complete (classifiedReason c)]
    else []

/-- `parseJsonEvent` from src/run.ts: dispatch by harness. -/
def parseJsonEvent (harness : Harness) (json : Json) : List UnifiedAgentEvent :=
  match harness with
  | .claude => parseClaude json
  | .codex => parseCodex json
  | .opencode => parseOpenCode json
  | .gemini => parseGemini json

/-- The mutable closure state of `executeCommand`, together with the
sequence of events pushed to the async queue so far (`delivered`). The
queue never drops or reorders: it closes only after the last push of the
turn, so the delivered sequence is exactly the pushed sequence. -/
structure TurnState where
  resolvedSessionId : String
  completionReason : CompletionReason
  completeEventSeen : Bool
  turnStartedSeen : Bool
  stopRequested : Bool
  stdoutBuffer : String
  delivered : List UnifiedAgentEvent
deriving Repr

/-- The `emit` closure of `executeCommand` (src/run.ts lines 654-668):
deduplicates turn.started and turn.complete, escalates the tracked
completion reason on out_of_tokens and error events, and pushes the event
to the queue. -/
def emit (st : TurnState) (event : UnifiedAgentEvent) : TurnState :=
  match event with
  | .turn_started =>
      if st.turnStartedSeen then st
      else { st with turnStartedSeen := true, delivered := st.delivered ++ [event] }
  | .turn_complete reason =>
      if st.completeEventSeen then st
      else { st with completeEventSeen := true, completionReason := reason,
                     delivered := st.delivered ++ [event] }
  | .out_of_tokens _ =>
      { st with completionReason := .out_of_tokens, delivered := st.delivered ++ [event] }
  | .error _ =>
      { st with
          completionReason := if st.completionReason = .success then .error else st.completionReason,
          delivered := st.delivered ++ [event] }
  | _ => { st with delivered := st.delivered ++ [event] }

/-- The `maybeUpdateSession` closure (src/run.ts lines 670-676): a truthy
captured id that differs from the tracked one overwrites it and emits a
session.started event. -/
def maybeUpdateSession (harness : Harness) (st : TurnState) (json : Json) : TurnState :=
  match captureSessionIdFromJson harness json with
  | some captured =>
      if captured ≠ "" ∧ captured ≠ st.resolvedSessionId then
        emit { st with resolvedSessionId := captured } (.session_started captured)
      else st
  | none => st

/-- Model of JavaScript `split` on a newline: splits a character list on
every newline, keeping empty segments, never returning an empty list. -/
def splitOnNl : List Char → List (List Char)
  | [] => [[]]
  | c :: rest =>
    match splitOnNl rest with
    | [] => [[]]
    | l :: ls => if c = '\n' then [] :: l :: ls else (c :: l) :: ls

example : (splitOnNl "a\nbc\n".toList).map String.mk = ["a", "bc", ""] := by rfl
example : (splitOnNl "ab".toList).map String.mk = ["ab"] := by rfl
example : (splitOnNl "".toList).map String.mk = [""] := by rfl

/-- The per-line body of the `onStdout` loop (src/run.ts lines 690-709):
skip blank lines, surface decode failures as protocol error events, and
otherwise resolve the session id and translate the record. The decode
function stands for `JSON.parse`, with the exception message on failure. -/
def processLine (parse : String → Except String Json) (harness : Harness)
    (st : TurnState) (line : String) : TurnState :=
  let trimmed := jsTrim line
  if trimmed = "" then st
  else
    match parse trimmed with
    | .error msg =>
        emit st (.error ("Failed to parse " ++ harnessName harness ++ " JSON: " ++ msg))
    | .ok json =>
        (parseJsonEvent harness json).foldl emit (maybeUpdateSession harness st json)

/-- The `onStdout` callback (src/run.ts lines 678-710): single-shot mode
forwards the chunk as one text delta; conversation mode appends the chunk
to the carry-over buffer, splits on newlines, retains the final segment as
the new buffer and processes every complete line. -/
def onStdoutChunk (parse : String → Except String Json) (harness : Harness) (mode : TurnMode)
    (st : TurnState) (text : String) : TurnState :=
  if mode = .single_shot then
    if text.length > 0 then emit st (.text_delta text) else st
  else
    let parts := splitOnNl (st.stdoutBuffer ++ text).toList
    let newBuffer := String.mk (parts.getLastD [])
    let toProcess := parts.dropLast.map String.mk
    toProcess.foldl (processLine parse harness) { st with stdoutBuffer := newBuffer }

/-- The `stop` closure (src/run.ts lines 785-790): sets the cancellation
flag; the boolean result records whether `child.kill` is invoked, which
happens only when the child has not already exited (exit code still null)
and has not already been signaled. -/
def stopModel (st : TurnState) (childExitCode : Option Int) (childKilled : Bool) :
    TurnState × Bool :=
  ({ st with stopRequested := true },
   decide (childExitCode = none) && !childKilled)

/-- One asynchronous notification during the turn: a stdout chunk, a
stderr chunk, or a call to `stop` (recording the child process state
observed at that moment). -/
inductive ProcInput where
  | stdout (text : String)
  | stderr (text : String)
  | stopCall (childExitCode : Option Int) (childKilled : Bool)

/-- Dispatch of one notification to its handler. -/
def stepInput (parse : String → Except String Json) (harness : Harness) (mode : TurnMode)
    (st : TurnState) : ProcInput → TurnState
  | .stdout text => onStdoutChunk parse harness mode st text
  | .stderr text => emit st (.stderr text)
  | .stopCall childExitCode childKilled => (stopModel st childExitCode childKilled).1

/-- The final-buffer pass at process close (src/run.ts lines 733-746):
in conversation mode a non-empty trailing fragment gets exactly one more
decode attempt; a failure is silently ignored, a success is resolved and
translated like a complete line. -/
def processTrailing (parse : String → Except String Json) (harness : Harness) (mode : TurnMode)
    (st : TurnState) : TurnState :=
  if mode = .conversation then
    let trailing := jsTrim st.stdoutBuffer
    if trailing = "" then st
    else
      match parse trailing with
      | .error _ => st
      | .ok json =>
          (parseJsonEvent harness json).foldl emit (maybeUpdateSession harness st json)
  else st

/-- The completion record (spec field omitted: the built command spec is
passed through verbatim and carries no turn state). -/
structure ExecuteCommandCompletion where
  reason : CompletionReason
  exitCode : Option Int
  sessionId : String
deriving Repr

/-- The exit inference of `executeCommand` (src/run.ts lines 748-766):
with a terminal event already observed the tracked reason stands;
otherwise killed on cancellation or signal death, error on a clean-state
non-zero exit, else the tracked reason — and a synthetic turn.complete
event carrying the inferred reason is emitted. -/
def finishTurn (st : TurnState) (exitCode : Option Int) :
    TurnState × ExecuteCommandCompletion :=
  let finalReason :=
    if st.completeEventSeen then st.completionReason
    else if st.stopRequested ∨ exitCode = none then CompletionReason.killed
    else if st.completionReason = .success ∧ exitCode ≠ some 0 then CompletionReason.error
    else st.completionReason
  let st2 := if st.completeEventSeen then st else emit st (.turn_complete finalReason)
  (st2, { reason := finalReason, exitCode := exitCode, sessionId := st2.resolvedSessionId })

/-- The state of a turn when the process exits, before exit inference:
the initial session.started and turn.started events (src/run.ts lines
728-729), then every notification in arrival order, then the trailing
buffer pass. The initial id is the caller-supplied resume id or the
generated identifier (src/run.ts line 628). -/
def preExitState (parse : String → Except String Json) (harness : Harness) (mode : TurnMode)
    (resumeSessionId : Option String) (generatedId : String) (inputs : List ProcInput) :
    TurnState :=
  let initialSessionId := resumeSessionId.getD generatedId
  let st0 : TurnState :=
    { resolvedSessionId := initialSessionId
      completionReason := .success
      completeEventSeen := false
      turnStartedSeen := false
      stopRequested := false
      stdoutBuffer := ""
      delivered := [] }
  let st1 := emit (emit st0 (.session_started initialSessionId)) .turn_started
  processTrailing parse harness mode (inputs.foldl (stepInput parse harness mode) st1)

/-- A whole turn of `executeCommand`: final turn state (whose `delivered`
field is the full event sequence the consumer iterates) and the resolved
completion record. -/
def executeCommandModel (parse : String → Except String Json) (harness : Harness)
    (mode : TurnMode) (resumeSessionId : Option String) (generatedId : String)
    (inputs : List ProcInput) (exitCode : Option Int) :
    TurnState × ExecuteCommandCompletion :=
  finishTurn (preExitState parse harness mode resumeSessionId generatedId inputs) exitCode

/-- A concrete decode function standing in for `JSON.parse` in concrete
runs. Each sample line decodes to the record `JSON.parse` would produce
on the corresponding codex wire text; every other line fails to decode,
as `JSON.parse` fails on arbitrary text. -/
def sampleParse : String → Except String Json
  | "thread-started-final" =>
      .ok (.obj [("type", .str "thread.started"), ("thread_id", .str "thread-final")])
  | "turn-started" => .ok (.obj [("type", .str "turn.started")])
  | "agent-message" =>
      .ok (.obj [("type", .str "item.completed"),
                 ("item", .obj [("type", .str "agent_message"), ("text", .str "hello")])])
  | "turn-completed" => .ok (.obj [("type", .str "turn.completed")])
  | "error-boom" => .ok (.obj [("type", .str "error"), ("message", .str "boom")])
  | s => .error ("Unexpected token " ++ s)

/-- Event classifiers used by the stream invariants. -/
def isTurnStarted : UnifiedAgentEvent → Bool
  | .turn_started => true
  | _ => false

def isTurnComplete : UnifiedAgentEvent → Bool
  | .turn_complete _ => true
  | _ => false

def isSessionStarted : UnifiedAgentEvent → Bool
  | .session_started _ => true
  | _ => false

def isErrorEvent : UnifiedAgentEvent → Bool
  | .error _ => true
  | _ => false

/-- Events that escalate the tracked completion reason in `emit`. -/
def isEscalating : UnifiedAgentEvent → Bool
  | .out_of_tokens _ => true
  | .error _ => true
  | _ => false

/-- The session id of the first session.started event of a sequence. -/
def firstSessionId : List UnifiedAgentEvent → Option String
  | [] => none
  | .session_started sid :: _ => some sid
  | _ :: rest => firstSessionId rest

/-- The session id of the last session.started event of a sequence. -/
def lastSessionId (events : List UnifiedAgentEvent) : Option String :=
  firstSessionId events.reverse

/-- The reason of the first turn.complete event of a sequence, paired
with the events delivered after it. -/
def terminalSplit : List UnifiedAgentEvent → Option (CompletionReason × List UnifiedAgentEvent)
  | [] => none
  | .turn_complete r :: rest => some (r, rest)
  | _ :: rest => terminalSplit rest

/-- Start/terminal deduplication invariant: the delivered counts of
turn.started and turn.complete events track the two seen flags exactly. -/
def StreamInv (st : TurnState) : Prop :=
  st.delivered.countP isTurnStarted = (if st.turnStartedSeen then 1 else 0) ∧
  st.delivered.countP isTurnComplete = (if st.completeEventSeen then 1 else 0)

/-- Session resolution invariant: the tracked session id is the id of the
last delivered session.started event. -/
def SessionInv (st : TurnState) : Prop :=
  lastSessionId st.delivered = some st.resolvedSessionId

/-- Terminal tracking invariant: a turn.complete event has been delivered
exactly when the flag is set, and the tracked reason still equals the
terminal reason as long as no escalating event followed the terminal. -/
def TermInv (st : TurnState) : Prop :=
  (st.completeEventSeen = false → terminalSplit st.delivered = none) ∧
  (∀ r rest, terminalSplit st.delivered = some (r, rest) →
    st.completeEventSeen = true ∧
    (rest.all (fun e => !isEscalating e) = true → st.completionReason = r))

/-- The conjunction of the three stream invariants. -/
def TurnInv (st : TurnState) : Prop :=
  StreamInv st ∧ SessionInv st ∧ TermInv st

theorem lastSessionId_append_session (l : List UnifiedAgentEvent) (sid : String) :
    lastSessionId (l ++ [.session_started sid]) = some sid := by
  simp [lastSessionId, firstSessionId]

theorem lastSessionId_append_other (l : List UnifiedAgentEvent) (e : UnifiedAgentEvent)
    (h : isSessionStarted e = false) : lastSessionId (l ++ [e]) = lastSessionId l := by
  cases e <;> simp_all [lastSessionId, firstSessionId, isSessionStarted]

theorem terminalSplit_append_none (l₁ l₂ : List UnifiedAgentEvent)
    (h : terminalSplit l₁ = none) : terminalSplit (l₁ ++ l₂) = terminalSplit l₂ := by
  induction l₁ with
  | nil => simp
  | cons e t ih =>
      cases e <;> simp_all [terminalSplit, isTurnStarted, isTurnComplete, isEscalating]

theorem terminalSplit_append_some (l₁ l₂ : List UnifiedAgentEvent)
    (r : CompletionReason) (rest : List UnifiedAgentEvent)
    (h : terminalSplit l₁ = some (r, rest)) :
    terminalSplit (l₁ ++ l₂) = some (r, rest ++ l₂) := by
  induction l₁ with
  | nil => simp [terminalSplit] at h
  | cons e t ih =>
      cases e <;> simp_all [terminalSplit, isTurnStarted, isTurnComplete, isEscalating]

theorem emit_resolvedSessionId (st : TurnState) (e : UnifiedAgentEvent) :
    (emit st e).resolvedSessionId = st.resolvedSessionId := by
  cases e <;> simp only [emit] <;> (try split) <;> rfl

theorem emit_stdoutBuffer (st : TurnState) (e : UnifiedAgentEvent) :
    (emit st e).stdoutBuffer = st.stdoutBuffer := by
  cases e <;> simp only [emit] <;> (try split) <;> rfl

theorem emit_stopRequested (st : TurnState) (e : UnifiedAgentEvent) :
    (emit st e).stopRequested = st.stopRequested := by
  cases e <;> simp only [emit] <;> (try split) <;> rfl

theorem emit_delivered_cases (st : TurnState) (e : UnifiedAgentEvent) :
    (emit st e).delivered = st.delivered ∨ (emit st e).delivered = st.delivered ++ [e] := by
  cases e <;> simp only [emit] <;> (try split) <;> simp

theorem emit_delivered_prefix (st : TurnState) (e : UnifiedAgentEvent) :
    st.delivered <+: (emit st e).delivered := by
  rcases emit_delivered_cases st e with h | h <;> rw [h]
  all_goals
    first
      | exact List.prefix_refl _
      | exact List.prefix_append _ _

theorem emit_streamInv (st : TurnState) (e : UnifiedAgentEvent) (h : StreamInv st) :
    StreamInv (emit st e) := by
  obtain ⟨h1, h2⟩ := h
  cases e <;>
    simp_all [emit, StreamInv, List.countP_append, List.countP_cons,
      isTurnStarted, isTurnComplete] <;>
    split <;>
    simp_all [List.countP_append, List.countP_cons, isTurnStarted, isTurnComplete]

theorem emit_sessionInv (st : TurnState) (e : UnifiedAgentEvent)
    (he : isSessionStarted e = false) (h : SessionInv st) : SessionInv (emit st e) := by
  have hres := emit_resolvedSessionId st e
  rcases emit_delivered_cases st e with hd | hd <;>
    simp only [SessionInv, hd, hres] at h ⊢
  · exact h
  · rw [lastSessionId_append_other _ _ he]
    exact h

theorem isEscalating_classifiedEvent (c : Classified) :
    isEscalating (classifiedEvent c) = true := by
  unfold classifiedEvent
  split <;> rfl

theorem termInv_snoc_plain (st st' : TurnState) (e : UnifiedAgentEvent)
    (hd : st'.delivered = st.delivered ++ [e])
    (hc : st'.completeEventSeen = st.completeEventSeen)
    (hr : st'.completionReason = st.completionReason)
    (ht : isTurnComplete e = false) (hesc : isEscalating e = false)
    (h : TermInv st) : TermInv st' := by
  obtain ⟨h1, h2⟩ := h
  constructor
  · intro hseen
    rw [hd, terminalSplit_append_none _ _ (h1 (hc ▸ hseen))]
    cases e <;> simp_all [terminalSplit, isTurnStarted, isTurnComplete, isEscalating]
  · intro r rest hsplit
    rw [hd] at hsplit
    cases hts : terminalSplit st.delivered with
    | none =>
        rw [terminalSplit_append_none _ _ hts] at hsplit
        cases e <;> simp_all [terminalSplit, isTurnStarted, isTurnComplete, isEscalating]
    | some pr =>
        obtain ⟨r0, rest0⟩ := pr
        rw [terminalSplit_append_some _ _ _ _ hts] at hsplit
        simp only [Option.some.injEq, Prod.mk.injEq] at hsplit
        obtain ⟨hr0, hrest⟩ := hsplit
        refine ⟨hc.trans (h2 r0 rest0 hts).1, ?_⟩
        intro hall
        rw [← hrest, List.all_append] at hall
        have hall0 : rest0.all (fun ev => !isEscalating ev) = true := by
          exact (Bool.and_eq_true _ _ ▸ hall).1
        rw [hr, (h2 r0 rest0 hts).2 hall0, hr0]

theorem termInv_snoc_escal (st st' : TurnState) (e : UnifiedAgentEvent)
    (hd : st'.delivered = st.delivered ++ [e])
    (hc : st'.completeEventSeen = st.completeEventSeen)
    (ht : isTurnComplete e = false) (hesc : isEscalating e = true)
    (h : TermInv st) : TermInv st' := by
  obtain ⟨h1, h2⟩ := h
  constructor
  · intro hseen
    rw [hd, terminalSplit_append_none _ _ (h1 (hc ▸ hseen))]
    cases e <;> simp_all [terminalSplit, isTurnStarted, isTurnComplete, isEscalating]
  · intro r rest hsplit
    rw [hd] at hsplit
    cases hts : terminalSplit st.delivered with
    | none =>
        rw [terminalSplit_append_none _ _ hts] at hsplit
        cases e <;> simp_all [terminalSplit, isTurnStarted, isTurnComplete, isEscalating]
    | some pr =>
        obtain ⟨r0, rest0⟩ := pr
        rw [terminalSplit_append_some _ _ _ _ hts] at hsplit
        simp only [Option.some.injEq, Prod.mk.injEq] at hsplit
        obtain ⟨hr0, hrest⟩ := hsplit
        refine ⟨hc.trans (h2 r0 rest0 hts).1, ?_⟩
        intro hall
        exfalso
        rw [← hrest, List.all_append] at hall
        have := (Bool.and_eq_true _ _ ▸ hall).2
        simp [hesc] at this

theorem emit_termInv (st : TurnState) (e : UnifiedAgentEvent) (h : TermInv st) :
    TermInv (emit st e) := by
  cases e with
  | session_started sid => exact termInv_snoc_plain st _ _ rfl rfl rfl rfl rfl h
  | text_delta t => exact termInv_snoc_plain st _ _ rfl rfl rfl rfl rfl h
  | tool_use n i d => exact termInv_snoc_plain st _ _ rfl rfl rfl rfl rfl h
  | stderr t => exact termInv_snoc_plain st _ _ rfl rfl rfl rfl rfl h
  | out_of_tokens m => exact termInv_snoc_escal st _ _ rfl rfl rfl rfl h
  | error m => exact termInv_snoc_escal st _ _ rfl rfl rfl rfl h
  | turn_started =>
      by_cases hs : st.turnStartedSeen = true
      · simpa [emit, hs] using h
      · have hf : st.turnStartedSeen = false := Bool.not_eq_true _ ▸ hs
        refine termInv_snoc_plain st (emit st .turn_started) .turn_started ?_ ?_ ?_ rfl rfl h <;>
          simp [emit, hf]
  | turn_complete r =>
      by_cases hs : st.completeEventSeen = true
      · simpa [emit, hs] using h
      · obtain ⟨h1, h2⟩ := h
        have hfalse : st.completeEventSeen = false := Bool.not_eq_true _ ▸ hs
        have hnone := h1 hfalse
        constructor
        · intro hseen
          simp [emit, hfalse] at hseen
        · intro r0 rest0 hsplit
          simp only [emit, hfalse, Bool.false_eq_true, if_false] at hsplit ⊢
          rw [terminalSplit_append_none _ _ hnone] at hsplit
          simp only [terminalSplit, Option.some.injEq, Prod.mk.injEq] at hsplit
          obtain ⟨hr0, hrest⟩ := hsplit
          refine ⟨by simp, fun hall => by simp_all⟩


theorem isSessionStarted_classifiedEvent (c : Classified) :
    isSessionStarted (classifiedEvent c) = false := by
  unfold classifiedEvent
  split <;> rfl

/-- No harness translator ever produces a session.started event: session
resolution is the business of `maybeUpdateSession` alone. -/
theorem parseClaude_no_session (j : Json) :
    (parseClaude j).all (fun e => !isSessionStarted e) = true := by
  simp only [parseClaude]
  repeat' split
  all_goals
    first
      | rfl
      | (simp only [List.all_cons, List.all_nil, isSessionStarted_classifiedEvent]
         simp [isSessionStarted])

theorem parseCodex_no_session (j : Json) :
    (parseCodex j).all (fun e => !isSessionStarted e) = true := by
  simp only [parseCodex]
  repeat' split
  all_goals
    first
      | rfl
      | (simp only [List.all_cons, List.all_nil, isSessionStarted_classifiedEvent]
         simp [isSessionStarted])

theorem parseOpenCode_no_session (j : Json) :
    (parseOpenCode j).all (fun e => !isSessionStarted e) = true := by
  simp only [parseOpenCode]
  repeat' split
  all_goals
    first
      | rfl
      | (simp only [List.all_cons, List.all_nil, isSessionStarted_classifiedEvent]
         simp [isSessionStarted])

theorem parseGemini_no_session (j : Json) :
    (parseGemini j).all (fun e => !isSessionStarted e) = true := by
  simp only [parseGemini]
  repeat' split
  all_goals
    first
      | rfl
      | (simp only [List.all_cons, List.all_nil, isSessionStarted_classifiedEvent]
         simp [isSessionStarted])

theorem parseJsonEvent_no_session (h : Harness) (j : Json) :
    ∀ e ∈ parseJsonEvent h j, isSessionStarted e = false := by
  intro e he
  have hall : (parseJsonEvent h j).all (fun e => !isSessionStarted e) = true := by
    cases h <;>
      simp only [parseJsonEvent] <;>
      first
        | exact parseClaude_no_session j
        | exact parseCodex_no_session j
        | exact parseOpenCode_no_session j
        | exact parseGemini_no_session j
  have := List.all_eq_true.mp hall e he
  simpa using this

/-- One reachable transition of the state machine: it preserves the
invariants and only appends to the delivered event sequence. -/
def Evolves (st st' : TurnState) : Prop :=
  (TurnInv st → TurnInv st') ∧ st.delivered <+: st'.delivered

theorem evolves_refl (st : TurnState) : Evolves st st :=
  ⟨id, List.prefix_refl _⟩

theorem evolves_trans {a b c : TurnState} (h1 : Evolves a b) (h2 : Evolves b c) :
    Evolves a c :=
  ⟨fun hI => h2.1 (h1.1 hI), h1.2.trans h2.2⟩

theorem emit_evolves_nonsession (st : TurnState) (e : UnifiedAgentEvent)
    (he : isSessionStarted e = false) : Evolves st (emit st e) :=
  ⟨fun ⟨h1, h2, h3⟩ =>
    ⟨emit_streamInv _ _ h1, emit_sessionInv _ _ he h2, emit_termInv _ _ h3⟩,
   emit_delivered_prefix st e⟩

theorem maybeUpdateSession_evolves (h : Harness) (st : TurnState) (j : Json) :
    Evolves st (maybeUpdateSession h st j) := by
  unfold maybeUpdateSession
  split
  case h_2 => exact evolves_refl st
  case h_1 captured heq =>
    split
    case isFalse => exact evolves_refl st
    case isTrue hcond =>
      have hdel :
          (emit { st with resolvedSessionId := captured }
            (.session_started captured)).delivered =
          st.delivered ++ [.session_started captured] := rfl
      constructor
      · rintro ⟨h1, h2, h3⟩
        refine ⟨emit_streamInv _ _ h1, ?_, emit_termInv _ _ h3⟩
        unfold SessionInv
        rw [hdel, lastSessionId_append_session, emit_resolvedSessionId]
      · rw [List.IsPrefix]
        exact ⟨_, hdel.symm⟩

theorem foldl_emit_evolves (events : List UnifiedAgentEvent)
    (hns : ∀ e ∈ events, isSessionStarted e = false) (st : TurnState) :
    Evolves st (events.foldl emit st) := by
  induction events generalizing st with
  | nil => exact evolves_refl st
  | cons e t ih =>
      exact evolves_trans (emit_evolves_nonsession st e (hns e (by simp)))
        (ih (fun x hx => hns x (by simp [hx])) (emit st e))

theorem processLine_evolves (parse : String → Except String Json) (h : Harness)
    (st : TurnState) (line : String) : Evolves st (processLine parse h st line) := by
  simp only [processLine]
  split
  · exact evolves_refl st
  · split
    · exact emit_evolves_nonsession st _ rfl
    · exact evolves_trans (maybeUpdateSession_evolves h st _)
        (foldl_emit_evolves _ (parseJsonEvent_no_session h _) _)

theorem buffer_set_evolves (st : TurnState) (b : String) :
    Evolves st { st with stdoutBuffer := b } :=
  ⟨id, List.prefix_refl _⟩

theorem foldl_processLine_evolves (parse : String → Except String Json) (h : Harness)
    (lines : List String) (st : TurnState) :
    Evolves st (lines.foldl (processLine parse h) st) := by
  induction lines generalizing st with
  | nil => exact evolves_refl st
  | cons l t ih =>
      exact evolves_trans (processLine_evolves parse h st l) (ih _)

theorem onStdoutChunk_evolves (parse : String → Except String Json) (h : Harness)
    (mode : TurnMode) (st : TurnState) (text : String) :
    Evolves st (onStdoutChunk parse h mode st text) := by
  unfold onStdoutChunk
  split
  · split
    · exact emit_evolves_nonsession st _ rfl
    · exact evolves_refl st
  · exact evolves_trans (buffer_set_evolves st _) (foldl_processLine_evolves parse h _ _)

theorem stop_set_evolves (st : TurnState) :
    Evolves st { st with stopRequested := true } :=
  ⟨id, List.prefix_refl _⟩

theorem stepInput_evolves (parse : String → Except String Json) (h : Harness)
    (mode : TurnMode) (st : TurnState) (inp : ProcInput) :
    Evolves st (stepInput parse h mode st inp) := by
  cases inp with
  | stdout text => exact onStdoutChunk_evolves parse h mode st text
  | stderr text => exact emit_evolves_nonsession st _ rfl
  | stopCall ec killed => exact stop_set_evolves st

theorem foldl_stepInput_evolves (parse : String → Except String Json) (h : Harness)
    (mode : TurnMode) (inputs : List ProcInput) (st : TurnState) :
    Evolves st (inputs.foldl (stepInput parse h mode) st) := by
  induction inputs generalizing st with
  | nil => exact evolves_refl st
  | cons i t ih =>
      exact evolves_trans (stepInput_evolves parse h mode st i) (ih _)

theorem processTrailing_evolves (parse : String → Except String Json) (h : Harness)
    (mode : TurnMode) (st : TurnState) : Evolves st (processTrailing parse h mode st) := by
  simp only [processTrailing]
  split
  · split
    · exact evolves_refl st
    · split
      · exact evolves_refl st
      · exact evolves_trans (maybeUpdateSession_evolves h st _)
          (foldl_emit_evolves _ (parseJsonEvent_no_session h _) _)
  · exact evolves_refl st

/-- The state the turn starts from, with the two eager events already
delivered. -/
def startState (initialSessionId : String) : TurnState :=
  { resolvedSessionId := initialSessionId
    completionReason := .success
    completeEventSeen := false
    turnStartedSeen := true
    stopRequested := false
    stdoutBuffer := ""
    delivered := [.session_started initialSessionId, .turn_started] }

theorem preExitState_eq (parse : String → Except String Json) (h : Harness)
    (mode : TurnMode) (rid : Option String) (gid : String) (inputs : List ProcInput) :
    preExitState parse h mode rid gid inputs =
      processTrailing parse h mode
        (inputs.foldl (stepInput parse h mode) (startState (rid.getD gid))) := rfl

theorem startState_inv (sid : String) : TurnInv (startState sid) := by
  refine ⟨⟨?_, ?_⟩, ?_, ?_, ?_⟩ <;>
    simp [startState, StreamInv, SessionInv, TermInv, lastSessionId, firstSessionId,
      terminalSplit, isTurnStarted, isTurnComplete, isSessionStarted]

theorem preExitState_evolves (parse : String → Except String Json) (h : Harness)
    (mode : TurnMode) (rid : Option String) (gid : String) (inputs : List ProcInput) :
    Evolves (startState (rid.getD gid)) (preExitState parse h mode rid gid inputs) := by
  rw [preExitState_eq]
  exact evolves_trans (foldl_stepInput_evolves parse h mode inputs _)
    (processTrailing_evolves parse h mode _)

theorem preExitState_inv (parse : String → Except String Json) (h : Harness)
    (mode : TurnMode) (rid : Option String) (gid : String) (inputs : List ProcInput) :
    TurnInv (preExitState parse h mode rid gid inputs) :=
  (preExitState_evolves parse h mode rid gid inputs).1 (startState_inv _)

theorem preExitState_prefix (parse : String → Except String Json) (h : Harness)
    (mode : TurnMode) (rid : Option String) (gid : String) (inputs : List ProcInput) :
    [UnifiedAgentEvent.session_started (rid.getD gid), .turn_started] <+:
      (preExitState parse h mode rid gid inputs).delivered :=
  (preExitState_evolves parse h mode rid gid inputs).2

theorem finishTurn_evolves (st : TurnState) (ec : Option Int) :
    Evolves st (finishTurn st ec).1 := by
  simp only [finishTurn]
  split
  · exact evolves_refl st
  · exact emit_evolves_nonsession st _ rfl

theorem finishTurn_exitCode (st : TurnState) (ec : Option Int) :
    (finishTurn st ec).2.exitCode = ec := rfl

theorem finishTurn_sessionId (st : TurnState) (ec : Option Int) :
    (finishTurn st ec).2.sessionId = (finishTurn st ec).1.resolvedSessionId := rfl

theorem executeCommandModel_evolves (parse : String → Except String Json) (h : Harness)
    (mode : TurnMode) (rid : Option String) (gid : String) (inputs : List ProcInput)
    (ec : Option Int) :
    Evolves (startState (rid.getD gid)) (executeCommandModel parse h mode rid gid inputs ec).1 :=
  evolves_trans (preExitState_evolves parse h mode rid gid inputs)
    (finishTurn_evolves (preExitState parse h mode rid gid inputs) ec)

theorem executeCommandModel_inv (parse : String → Except String Json) (h : Harness)
    (mode : TurnMode) (rid : Option String) (gid : String) (inputs : List ProcInput)
    (ec : Option Int) :
    TurnInv (executeCommandModel parse h mode rid gid inputs ec).1 :=
  (executeCommandModel_evolves parse h mode rid gid inputs ec).1 (startState_inv _)

example :
    executeCommandModel sampleParse .codex .conversation (some "resume-thread") "gen-1"
      [.stdout "thread-started-final\nturn-started\nagent-message\nturn-completed\n"]
      (some 0) =
    ({ resolvedSessionId := "thread-final"
       completionReason := .success
       completeEventSeen := true
       turnStartedSeen := true
       stopRequested := false
       stdoutBuffer := ""
       delivered := [.session_started "resume-thread", .turn_started,
                     .session_started "thread-final", .text_delta "hello",
                     .turn_complete .success] },
     { reason := .success, exitCode := some 0, sessionId := "thread-final" }) := by rfl

/-- C2: for every turn — any harness, mode, decode function, process
output, stop calls and exit code — the delivered event sequence contains
at most one turn.started and at most one turn.complete event, because
`emit` drops duplicates of both. -/
theorem c2_at_most_one_start_and_terminal (parse : String → Except String Json)
    (h : Harness) (mode : TurnMode) (rid : Option String) (gid : String)
    (inputs : List ProcInput) (ec : Option Int) :
    (executeCommandModel parse h mode rid gid inputs ec).1.delivered.countP isTurnStarted ≤ 1 ∧
    (executeCommandModel parse h mode rid gid inputs ec).1.delivered.countP isTurnComplete ≤ 1 := by
  obtain ⟨⟨h1, h2⟩, -, -⟩ := executeCommandModel_inv parse h mode rid gid inputs ec
  constructor
  · rw [h1]
    split <;> simp
  · rw [h2]
    split <;> simp

/-- C10: in either mode the first two delivered events are a
session.started event carrying the initial id (caller-supplied resume id,
or the generated identifier) followed by one turn.started event, both
emitted before any process output is handled; every turn therefore
delivers at least one session.started and exactly one turn.started even
when the process emits nothing. -/
theorem c10_stream_opens_with_session_and_turn_started
    (parse : String → Except String Json) (h : Harness) (mode : TurnMode)
    (rid : Option String) (gid : String) (inputs : List ProcInput) (ec : Option Int) :
    (executeCommandModel parse h mode rid gid inputs ec).1.delivered.take 2 =
      [.session_started (rid.getD gid), .turn_started] ∧
    (executeCommandModel parse h mode rid gid inputs ec).1.delivered.countP isTurnStarted = 1 ∧
    1 ≤ (executeCommandModel parse h mode rid gid inputs ec).1.delivered.countP
      isSessionStarted := by
  obtain ⟨t, ht⟩ := (executeCommandModel_evolves parse h mode rid gid inputs ec).2
  simp only [startState] at ht
  obtain ⟨⟨h1, -⟩, -, -⟩ := executeCommandModel_inv parse h mode rid gid inputs ec
  refine ⟨?_, ?_, ?_⟩
  · rw [← ht]
    rfl
  · have hle : (executeCommandModel parse h mode rid gid inputs ec).1.delivered.countP
        isTurnStarted ≤ 1 := by
      rw [h1]
      split <;> simp
    have hge : 1 ≤ (executeCommandModel parse h mode rid gid inputs ec).1.delivered.countP
        isTurnStarted := by
      rw [← ht, List.countP_append]
      simp [List.countP_cons, isTurnStarted]
    omega
  · rw [← ht, List.countP_append]
    simp [List.countP_cons, isSessionStarted]

/-- C4: the completion record carries the session id of the last
session.started event delivered (there is always at least the initial
one, so the initial-id fallback of the claim is subsumed); concretely, a
resumed codex turn that receives a fresh provider thread id mid-stream
delivers session.started events for the initial id first and the provider
id second, and completes with the provider id. -/
theorem c4_completion_session_is_last_session_event
    (parse : String → Except String Json) (h : Harness) (mode : TurnMode)
    (rid : Option String) (gid : String) (inputs : List ProcInput) (ec : Option Int) :
    (lastSessionId (executeCommandModel parse h mode rid gid inputs ec).1.delivered =
       some (executeCommandModel parse h mode rid gid inputs ec).2.sessionId) ∧
    ((executeCommandModel parse h mode rid gid inputs ec).2.sessionId =
       (lastSessionId
         (executeCommandModel parse h mode rid gid inputs ec).1.delivered).getD (rid.getD gid)) ∧
    ((executeCommandModel sampleParse .codex .conversation (some "resume-thread") "gen-1"
        [.stdout "thread-started-final\nturn-started\nagent-message\nturn-completed\n"]
        (some 0)).1.delivered.filter isSessionStarted =
      [.session_started "resume-thread", .session_started "thread-final"]) ∧
    ((executeCommandModel sampleParse .codex .conversation (some "resume-thread") "gen-1"
        [.stdout "thread-started-final\nturn-started\nagent-message\nturn-completed\n"]
        (some 0)).2.sessionId = "thread-final") := by
  obtain ⟨-, hsess, -⟩ := executeCommandModel_inv parse h mode rid gid inputs ec
  have hid : (executeCommandModel parse h mode rid gid inputs ec).2.sessionId =
      (executeCommandModel parse h mode rid gid inputs ec).1.resolvedSessionId := rfl
  refine ⟨?_, ?_, rfl, rfl⟩
  · rw [hid]
    exact hsess
  · rw [hid, hsess]
    rfl
/-- C3 as stated is false on the code: an error record arriving after a
success terminal still escalates the tracked completion reason inside
`emit`, so the completion record reason (error) differs from the reason of
the delivered terminal event (success). Concrete run: codex records
turn.completed then an error record, process exit code 0. -/
theorem c3_counterexample_escalation_after_terminal :
    terminalSplit (executeCommandModel sampleParse .codex .conversation none "gen-1"
        [.stdout "turn-completed\nerror-boom\n"] (some 0)).1.delivered =
      some (.success, [.error "boom"]) ∧
    (executeCommandModel sampleParse .codex .conversation none "gen-1"
        [.stdout "turn-completed\nerror-boom\n"] (some 0)).2.reason = .error ∧
    (executeCommandModel sampleParse .codex .conversation none "gen-1"
        [.stdout "turn-completed\nerror-boom\n"] (some 0)).2.reason ≠ .success := by
  refine ⟨rfl, rfl, ?_⟩
  intro hcontra
  rw [show (executeCommandModel sampleParse .codex .conversation none "gen-1"
      [.stdout "turn-completed\nerror-boom\n"] (some 0)).2.reason = .error from rfl] at hcontra
  cases hcontra

/-- C3 (amended): for every turn in which a turn.complete event was
delivered, the completion record takes the process exit code verbatim,
and its reason equals the reason of that terminal event provided no
out_of_tokens or error event was delivered after the terminal (a later
escalating event overrides the tracked reason). -/
theorem c3_terminal_reason_flows_to_completion
    (parse : String → Except String Json) (h : Harness) (mode : TurnMode)
    (rid : Option String) (gid : String) (inputs : List ProcInput) (ec : Option Int)
    (r : CompletionReason) (rest : List UnifiedAgentEvent)
    (hsplit : terminalSplit (executeCommandModel parse h mode rid gid inputs ec).1.delivered =
      some (r, rest))
    (hcalm : rest.all (fun e => !isEscalating e) = true) :
    (executeCommandModel parse h mode rid gid inputs ec).2.reason = r ∧
    (executeCommandModel parse h mode rid gid inputs ec).2.exitCode = ec := by
  refine ⟨?_, rfl⟩
  obtain ⟨-, -, hterm⟩ := preExitState_inv parse h mode rid gid inputs
  by_cases hseen : (preExitState parse h mode rid gid inputs).completeEventSeen = true
  · have h1 : (executeCommandModel parse h mode rid gid inputs ec).1 =
        preExitState parse h mode rid gid inputs := by
      simp [executeCommandModel, finishTurn, hseen]
    have h2 : (executeCommandModel parse h mode rid gid inputs ec).2.reason =
        (preExitState parse h mode rid gid inputs).completionReason := by
      simp [executeCommandModel, finishTurn, hseen]
    rw [h1] at hsplit
    rw [h2]
    exact (hterm.2 r rest hsplit).2 hcalm
  · have hf : (preExitState parse h mode rid gid inputs).completeEventSeen = false :=
      Bool.not_eq_true _ ▸ hseen
    have hnone := hterm.1 hf
    have hdel : (executeCommandModel parse h mode rid gid inputs ec).1.delivered =
        (preExitState parse h mode rid gid inputs).delivered ++
          [.turn_complete ((executeCommandModel parse h mode rid gid inputs ec).2.reason)] := by
      simp [executeCommandModel, finishTurn, emit, hf]
    rw [hdel, terminalSplit_append_none _ _ hnone] at hsplit
    simp only [terminalSplit, Option.some.injEq, Prod.mk.injEq] at hsplit
    exact hsplit.1

/-- Witness for C3 (amended): a terminal-success record followed by exit
code 0 round-trips to reason success with exit code 0. -/
theorem c3_roundtrip_witness :
    terminalSplit (executeCommandModel sampleParse .codex .conversation none "gen-1"
        [.stdout "turn-completed\n"] (some 0)).1.delivered = some (.success, []) ∧
    (executeCommandModel sampleParse .codex .conversation none "gen-1"
        [.stdout "turn-completed\n"] (some 0)).2.reason = .success ∧
    (executeCommandModel sampleParse .codex .conversation none "gen-1"
        [.stdout "turn-completed\n"] (some 0)).2.exitCode = some 0 :=
  ⟨rfl,
   (c3_terminal_reason_flows_to_completion sampleParse .codex .conversation none "gen-1"
      [.stdout "turn-completed\n"] (some 0) .success [] rfl rfl).1,
   (c3_terminal_reason_flows_to_completion sampleParse .codex .conversation none "gen-1"
      [.stdout "turn-completed\n"] (some 0) .success [] rfl rfl).2⟩

/-- C6: a turn whose pre-exit state saw no terminal event, no stop call
and no reason escalation (the session/start-record-only trace of the
claim) completes with reason error and the exact non-zero exit code. -/
theorem c6_nonzero_exit_without_terminal_infers_error
    (parse : String → Except String Json) (h : Harness) (mode : TurnMode)
    (rid : Option String) (gid : String) (inputs : List ProcInput) (n : Int)
    (hn : n ≠ 0)
    (hseen : (preExitState parse h mode rid gid inputs).completeEventSeen = false)
    (hstop : (preExitState parse h mode rid gid inputs).stopRequested = false)
    (hreason : (preExitState parse h mode rid gid inputs).completionReason = .success) :
    (executeCommandModel parse h mode rid gid inputs (some n)).2.reason = .error ∧
    (executeCommandModel parse h mode rid gid inputs (some n)).2.exitCode = some n := by
  refine ⟨?_, rfl⟩
  show (finishTurn (preExitState parse h mode rid gid inputs) (some n)).2.reason = .error
  simp [finishTurn, hseen, hstop, hreason, hn]

/-- Witness for C6: the codex shim trace of the repository test — one
thread.started record, then exit code 7 with no terminal record. -/
theorem c6_nonzero_exit_witness :
    (7 : Int) ≠ 0 ∧
    (preExitState sampleParse .codex .conversation none "gen-1"
        [.stdout "thread-started-final\n"]).completeEventSeen = false ∧
    (preExitState sampleParse .codex .conversation none "gen-1"
        [.stdout "thread-started-final\n"]).stopRequested = false ∧
    (preExitState sampleParse .codex .conversation none "gen-1"
        [.stdout "thread-started-final\n"]).completionReason = .success ∧
    (executeCommandModel sampleParse .codex .conversation none "gen-1"
        [.stdout "thread-started-final\n"] (some 7)).2.reason = .error ∧
    (executeCommandModel sampleParse .codex .conversation none "gen-1"
        [.stdout "thread-started-final\n"] (some 7)).2.exitCode = some 7 :=
  ⟨by decide, rfl, rfl, rfl,
   (c6_nonzero_exit_without_terminal_infers_error sampleParse .codex .conversation none "gen-1"
      [.stdout "thread-started-final\n"] 7 (by decide) rfl rfl rfl).1,
   (c6_nonzero_exit_without_terminal_infers_error sampleParse .codex .conversation none "gen-1"
      [.stdout "thread-started-final\n"] 7 (by decide) rfl rfl rfl).2⟩

/-- C7: a cancelled turn (stop called, so the cancellation flag is set)
with no terminal event delivered that dies by signal (exit code absent)
completes with reason killed and exit code null; and the stop closure
only sets the cancellation flag — touching neither the delivered events
nor the tracked reason — and sends the termination signal exactly when
the child has not already exited and has not already been signaled. -/
theorem c7_stop_then_signal_death_yields_killed
    (parse : String → Except String Json) (h : Harness) (mode : TurnMode)
    (rid : Option String) (gid : String) (inputs : List ProcInput)
    (hstop : (preExitState parse h mode rid gid inputs).stopRequested = true)
    (hseen : (preExitState parse h mode rid gid inputs).completeEventSeen = false) :
    ((executeCommandModel parse h mode rid gid inputs none).2.reason = .killed ∧
     (executeCommandModel parse h mode rid gid inputs none).2.exitCode = none) ∧
    (∀ (st : TurnState) (childExitCode : Option Int) (childKilled : Bool),
      (stopModel st childExitCode childKilled).1 = { st with stopRequested := true } ∧
      ((stopModel st childExitCode childKilled).2 = true ↔
        childExitCode = none ∧ childKilled = false)) := by
  constructor
  · refine ⟨?_, rfl⟩
    show (finishTurn (preExitState parse h mode rid gid inputs) none).2.reason = .killed
    simp [finishTurn, hseen, hstop]
  · intro st childExitCode childKilled
    refine ⟨rfl, ?_⟩
    simp [stopModel]

/-- Witness for C7: stop is called after the session record with the
child still alive and unsignaled, then the process dies by signal. -/
theorem c7_stop_witness :
    (preExitState sampleParse .codex .conversation none "gen-1"
        [.stdout "thread-started-final\n", .stopCall none false]).stopRequested = true ∧
    (preExitState sampleParse .codex .conversation none "gen-1"
        [.stdout "thread-started-final\n", .stopCall none false]).completeEventSeen = false ∧
    (executeCommandModel sampleParse .codex .conversation none "gen-1"
        [.stdout "thread-started-final\n", .stopCall none false] none).2.reason = .killed ∧
    (executeCommandModel sampleParse .codex .conversation none "gen-1"
        [.stdout "thread-started-final\n", .stopCall none false] none).2.exitCode = none ∧
    (stopModel (startState "gen-1") none false).2 = true :=
  ⟨rfl, rfl,
   ((c7_stop_then_signal_death_yields_killed sampleParse .codex .conversation none "gen-1"
      [.stdout "thread-started-final\n", .stopCall none false] rfl rfl).1).1,
   ((c7_stop_then_signal_death_yields_killed sampleParse .codex .conversation none "gen-1"
      [.stdout "thread-started-final\n", .stopCall none false] rfl rfl).1).2,
   rfl⟩
/-- C1: evaluation of the code at the failing input of the claim. A codex
conversation turn that emits a session/start record, a turn-start record
and an assistant-text record, then exits with code 0 and no terminal
record, completes with reason success and delivers no error event at all
(the synthetic terminal carries success). The claim — matching the
contract test of the repository, which expects reason error plus an error
event mentioning the missing terminal turn.complete — is what the exit
inference of executeCommand fails to implement: with exit code 0 the
tracked reason success is carried forward unchanged. -/
theorem c1_clean_exit_without_terminal_reports_success :
    (executeCommandModel sampleParse .codex .conversation none "gen-1"
        [.stdout "thread-started-final\nturn-started\nagent-message\n"] (some 0)).2.reason =
      CompletionReason.success ∧
    (executeCommandModel sampleParse .codex .conversation none "gen-1"
        [.stdout "thread-started-final\nturn-started\nagent-message\n"] (some 0)).1.delivered.countP
      isErrorEvent = 0 ∧
    (executeCommandModel sampleParse .codex .conversation none "gen-1"
        [.stdout "thread-started-final\nturn-started\nagent-message\n"] (some 0)).1.delivered =
      [.session_started "gen-1", .turn_started, .session_started "thread-final",
       .text_delta "hello", .turn_complete .success] :=
  ⟨rfl, rfl, rfl⟩

/-- C5: the completion classifier — empty or whitespace-only input is
normalized to the generic unknown-error text; input matching the
quota/rate-limit pattern is classified out_of_tokens with the trimmed
message prefixed by the normalized marker unless already so prefixed;
any other input is classified error with the trimmed message preserved
verbatim. The concrete cases of the claim are included. -/
theorem c5_classifier_cases (s : String) :
    (jsTrim s = "" → classifyError s = { kind := .error, message := "Unknown error" }) ∧
    (jsTrim s ≠ "" → outOfTokensPattern (jsTrim s) = true →
      classifyError s = ⟨ErrorKind.out_of_tokens,
        if startsOotColon (jsTrim s) then jsTrim s else "Out of tokens: " ++ jsTrim s⟩) ∧
    (jsTrim s ≠ "" → outOfTokensPattern (jsTrim s) = false →
      classifyError s = { kind := .error, message := jsTrim s }) ∧
    classifyError "rate limit exceeded" =
      { kind := .out_of_tokens, message := "Out of tokens: rate limit exceeded" } ∧
    classifyError "unexpected token at line 4" =
      { kind := .error, message := "unexpected token at line 4" } ∧
    classifyError "" = { kind := .error, message := "Unknown error" } := by
  refine ⟨?_, ?_, ?_, rfl, rfl, rfl⟩
  · intro he
    simp [classifyError, he]
  · intro hne hp
    simp [classifyError, hne, hp]
  · intro hne hp
    simp [classifyError, hne, hp]

/-- Witness for C5: one instance per classifier branch, with surrounding
whitespace to exercise trimming. -/
theorem c5_classifier_witness :
    classifyError " rate limit exceeded " =
      { kind := .out_of_tokens, message := "Out of tokens: rate limit exceeded" } ∧
    classifyError " boom " = { kind := .error, message := "boom" } ∧
    classifyError "  " = { kind := .error, message := "Unknown error" } :=
  ⟨(c5_classifier_cases " rate limit exceeded ").2.1 (by decide) rfl,
   (c5_classifier_cases " boom ").2.2.1 (by decide) rfl,
   (c5_classifier_cases "  ").1 rfl⟩

/-- C8 as stated is false on the code: the OpenCode translator does not
return the empty sequence on an unknown discriminant — its default branch
falls back to assistant-text extraction. The record with unrecognized
discriminant bogus and a text field yields a text delta. -/
theorem c8_counterexample_opencode_fallback :
    openCodeEventType (Json.obj [("type", .str "bogus"), ("text", .str "hi")]) =
      some "bogus" ∧
    parseOpenCode (Json.obj [("type", .str "bogus"), ("text", .str "hi")]) =
      [.text_delta "hi"] ∧
    parseOpenCode (Json.obj [("type", .str "bogus"), ("text", .str "hi")]) ≠ [] := by
  refine ⟨rfl, rfl, ?_⟩
  intro hcontra
  rw [show parseOpenCode (Json.obj [("type", .str "bogus"), ("text", .str "hi")]) =
      [.text_delta "hi"] from rfl] at hcontra
  cases hcontra
/-- C8 (amended): a decoded JSON object record whose discriminant is not
one of the recognized values yields the empty event sequence for the
Claude, Codex and Gemini translators; the OpenCode translator instead
falls back to assistant-text extraction, yielding one text delta when
text is found and the empty sequence otherwise. -/
theorem c8_unknown_discriminant_dispatch
    (fsC fsX fsG fsO : List (String × Json)) :
    ((asString (getF (Json.obj fsC) "type") ≠ some "system" ∧
      asString (getF (Json.obj fsC) "type") ≠ some "stream_event" ∧
      asString (getF (Json.obj fsC) "type") ≠ some "assistant" ∧
      asString (getF (Json.obj fsC) "type") ≠ some "result") →
        parseClaude (Json.obj fsC) = []) ∧
    ((truthyStr (asString (getF (Json.obj fsX) "type")) ≠ some "thread.started" ∧
      truthyStr (asString (getF (Json.obj fsX) "type")) ≠ some "turn.started" ∧
      truthyStr (asString (getF (Json.obj fsX) "type")) ≠ some "turn.completed" ∧
      truthyStr (asString (getF (Json.obj fsX) "type")) ≠ some "turn.failed" ∧
      truthyStr (asString (getF (Json.obj fsX) "type")) ≠ some "error" ∧
      truthyStr (asString (getF (Json.obj fsX) "type")) ≠ some "item.started" ∧
      truthyStr (asString (getF (Json.obj fsX) "type")) ≠ some "item.completed") →
        parseCodex (Json.obj fsX) = []) ∧
    ((asString (getF (Json.obj fsG) "type") ≠ some "init" ∧
      asString (getF (Json.obj fsG) "type") ≠ some "message" ∧
      asString (getF (Json.obj fsG) "type") ≠ some "result") →
        parseGemini (Json.obj fsG) = []) ∧
    ((openCodeEventType (Json.obj fsO) ≠ some "step_start" ∧
      openCodeEventType (Json.obj fsO) ≠ some "text" ∧
      openCodeEventType (Json.obj fsO) ≠ some "tool_use" ∧
      openCodeEventType (Json.obj fsO) ≠ some "tool" ∧
      openCodeEventType (Json.obj fsO) ≠ some "step_finish" ∧
      openCodeEventType (Json.obj fsO) ≠ some "done" ∧
      openCodeEventType (Json.obj fsO) ≠ some "complete" ∧
      openCodeEventType (Json.obj fsO) ≠ some "message_complete" ∧
      openCodeEventType (Json.obj fsO) ≠ some "response_complete" ∧
      openCodeEventType (Json.obj fsO) ≠ some "error") →
        parseOpenCode (Json.obj fsO) =
          (match extractOpenCodeAssistantText (Json.obj fsO) with
           | some t => [.text_delta t]
           | none => [])) := by
  refine ⟨?_, ?_, ?_, ?_⟩
  · rintro ⟨n1, n2, n3, n4⟩
    simp only [parseClaude, asObject]
    rw [if_neg (fun hc => n1 hc.1), if_neg n2, if_neg n3, if_neg n4]
  · rintro ⟨n1, n2, n3, n4, n5, n6, n7⟩
    simp only [parseCodex, asObject]
    split <;> first | rfl | simp_all
  · rintro ⟨n1, n2, n3⟩
    simp only [parseGemini, asObject]
    rw [if_neg n1, if_neg n2, if_neg n3]
  · rintro ⟨n1, n2, n3, n4, n5, n6, n7, n8, n9, n10⟩
    simp only [parseOpenCode, asObject]
    rw [if_neg n1, if_neg n2,
      if_neg (fun hc => Or.elim hc n3 n4), if_neg n5,
      if_neg (fun hc => Or.elim hc n6 (fun hc2 => Or.elim hc2 n7 (fun hc3 => Or.elim hc3 n8 n9))),
      if_neg n10]

/-- Witness for C8 (amended): an object record whose discriminant is the
unrecognized value mystery, for each translator. -/
theorem c8_unknown_discriminant_witness :
    parseClaude (Json.obj [("type", .str "mystery")]) = [] ∧
    parseCodex (Json.obj [("type", .str "mystery")]) = [] ∧
    parseGemini (Json.obj [("type", .str "mystery")]) = [] ∧
    parseOpenCode (Json.obj [("type", .str "mystery")]) = [] :=
  ⟨(c8_unknown_discriminant_dispatch [("type", .str "mystery")] [("type", .str "mystery")]
      [("type", .str "mystery")] [("type", .str "mystery")]).1 (by decide),
   (c8_unknown_discriminant_dispatch [("type", .str "mystery")] [("type", .str "mystery")]
      [("type", .str "mystery")] [("type", .str "mystery")]).2.1 (by decide),
   (c8_unknown_discriminant_dispatch [("type", .str "mystery")] [("type", .str "mystery")]
      [("type", .str "mystery")] [("type", .str "mystery")]).2.2.1 (by decide),
   (c8_unknown_discriminant_dispatch [("type", .str "mystery")] [("type", .str "mystery")]
      [("type", .str "mystery")] [("type", .str "mystery")]).2.2.2 (by decide)⟩
/-- C9: a complete mid-stream line that fails to decode produces exactly
one protocol error event and leaves the rest of the turn state untouched
(so processing of subsequent records continues — demonstrated end to end
by a run whose bad line is followed by a terminal record that is still
honored); at process close a non-empty trailing fragment gets exactly one
decode attempt whose failure is silently ignored (the state is returned
unchanged, no event), while a successfully decoded trailing fragment is
resolved and translated like a complete line — demonstrated end to end by
a run whose only terminal record sits in the unterminated trailing
fragment yet still completes with reason success. -/
theorem c9_parse_failure_policy
    (parse : String → Except String Json) (h : Harness) (st : TurnState)
    (line : String) (msg : String) (j : Json) :
    (jsTrim line ≠ "" → parse (jsTrim line) = .error msg →
      processLine parse h st line =
        emit st (.error ("Failed to parse " ++ harnessName h ++ " JSON: " ++ msg))) ∧
    (jsTrim st.stdoutBuffer ≠ "" → parse (jsTrim st.stdoutBuffer) = .error msg →
      processTrailing parse h .conversation st = st) ∧
    (jsTrim st.stdoutBuffer ≠ "" → parse (jsTrim st.stdoutBuffer) = .ok j →
      processTrailing parse h .conversation st =
        (parseJsonEvent h j).foldl emit (maybeUpdateSession h st j)) ∧
    (executeCommandModel sampleParse .codex .conversation none "gen-1"
        [.stdout "badline\nturn-completed\n"] (some 0)).1.delivered =
      [.session_started "gen-1", .turn_started,
       .error "Failed to parse codex JSON: Unexpected token badline",
       .turn_complete .success] ∧
    (executeCommandModel sampleParse .codex .conversation none "gen-1"
        [.stdout "badline\nturn-completed\n"] (some 0)).2.reason = .success ∧
    (executeCommandModel sampleParse .codex .conversation none "gen-1"
        [.stdout "turn-completed"] (some 0)).1.delivered =
      [.session_started "gen-1", .turn_started, .turn_complete .success] ∧
    (executeCommandModel sampleParse .codex .conversation none "gen-1"
        [.stdout "garbage-tail"] (some 0)).1.delivered =
      [.session_started "gen-1", .turn_started, .turn_complete .success] := by
  refine ⟨?_, ?_, ?_, rfl, rfl, rfl, rfl⟩
  · intro hne hp
    simp only [processLine]
    rw [if_neg hne, hp]
  · intro hne hp
    simp [processTrailing, hne, hp]
  · intro hne hp
    simp [processTrailing, hne, hp]

/-- Witness for C9: the general clauses applied to a bad mid-stream line,
an undecodable trailing fragment, and a decodable trailing terminal. -/
theorem c9_parse_failure_witness :
    processLine sampleParse .codex (startState "gen-1") "badline" =
      emit (startState "gen-1")
        (.error "Failed to parse codex JSON: Unexpected token badline") ∧
    processTrailing sampleParse .codex .conversation
        { startState "gen-1" with stdoutBuffer := "garbage-tail" } =
      { startState "gen-1" with stdoutBuffer := "garbage-tail" } ∧
    processTrailing sampleParse .codex .conversation
        { startState "gen-1" with stdoutBuffer := "turn-completed" } =
      (parseJsonEvent .codex (Json.obj [("type", .str "turn.completed")])).foldl emit
        (maybeUpdateSession .codex
          { startState "gen-1" with stdoutBuffer := "turn-completed" }
          (Json.obj [("type", .str "turn.completed")])) :=
  ⟨(c9_parse_failure_policy sampleParse .codex (startState "gen-1") "badline"
      "Unexpected token badline" Json.null).1 (by decide) rfl,
   (c9_parse_failure_policy sampleParse .codex
      { startState "gen-1" with stdoutBuffer := "garbage-tail" } ""
      "Unexpected token garbage-tail" Json.null).2.1 (by decide) rfl,
   (c9_parse_failure_policy sampleParse .codex
      { startState "gen-1" with stdoutBuffer := "turn-completed" } "" ""
      (Json.obj [("type", .str "turn.completed")])).2.2.1 (by decide) rfl⟩
